import Mathlib

/-!
Verification development for the maptools repository.

Shallow embedding of the core algorithms:
* `Viz`  — `src/server/src/vizgroup.rs` (sweep-line transitive closure of
  rectangle adjacency; `VizGroups`, `LiveBlock`, `VizGroup::merge`, drop
  semantics modelled functionally with explicit group ids).
* `RO`   — `src/rust/src/generator/regionorder.rs` (the LOD tile scheduler:
  `ColumnCursors`, `ColumnCursor`, `RecentColumnInfo`).
* `HF`   — `src/rust/src/common/uploadedregioninfo.rs` (`HeightField::combine`,
  `elev_to_u8`, `u8_to_elev`; `f32` values modelled as exact rationals).
* `SM`   — `src/rust/src/generator/sculptmaker.rs` (`TerrainSculpt::makeimage`
  quantization; `f64` values modelled as exact rationals).
* `GT`   — `src/rust/src/generator/generateterrain.rs` (the argument wiring of
  `run` / `TerrainGenerator::new` / `build_impostor`).

Machine integers (`u32`) are modelled as `Nat`; where the Rust release build
wraps an addition before a comparison the model reduces modulo `2^32`
(`u32add`).  Runtime `assert!`s and panics are modelled as no-ops or defaults;
every theorem either carries hypotheses ruling the panics out or is evaluated
on concrete panic-free runs.
-/

/-- The u32 modulus. -/
def U32MOD : Nat := 4294967296

/-- Largest u32 value, `u32::MAX`. -/
def U32MAX : Nat := 4294967295

/-- Wrapping u32 addition (Rust release semantics for `a + b` on `u32`). -/
def u32add (a b : Nat) : Nat := (a + b) % U32MOD

/-- Wrapping u32 multiplication (Rust release semantics for `a * b`). -/
def u32mul (a b : Nat) : Nat := (a * b) % U32MOD

/-- Wrapping u32 subtraction (Rust release semantics for `a - b`, for
u32-valued arguments). -/
def u32sub (a b : Nat) : Nat := (a + U32MOD - b) % U32MOD

/-- Binary minimum on exact rationals (`f64::min` on NaN-free values),
written with an explicit comparison so that it evaluates by reduction. -/
def rmin (a b : ℚ) : ℚ := if a ≤ b then a else b

/-- Binary maximum on exact rationals (`f64::max` on NaN-free values). -/
def rmax (a b : ℚ) : ℚ := if a ≤ b then b else a

/-- Binary minimum on integers (`std::cmp::min` on `i32`). -/
def imin (a b : Int) : Int := if a ≤ b then a else b

/-- Binary maximum on integers (`std::cmp::max` on `i32`). -/
def imax (a b : Int) : Int := if a ≤ b then b else a

namespace Viz

/-- `RegionData` from `src/server/src/vizgroup.rs`. -/
structure RegionData where
  grid : String
  region_coords_x : Nat
  region_coords_y : Nat
  size_x : Nat
  size_y : Nat
  name : String
deriving DecidableEq, Repr

/-- A `LiveBlock`: a region plus the id of the `VizGroup` it points to.
The `Rc<RefCell<VizGroup>>` pointer of the Rust code is modelled by a
group id resolved in the ambient state. -/
structure LiveBlock where
  region_data : RegionData
  gid : Nat
deriving DecidableEq, Repr

/-- Placeholder block used for out-of-range positional reads (never hit on
in-bounds traversals). -/
def dummyBlock : LiveBlock :=
  { region_data := { grid := "", region_coords_x := 0, region_coords_y := 0,
                     size_x := 0, size_y := 0, name := "" }, gid := 0 }

/-- State of a `VizGroups` computation.  `groups` maps live group ids to the
member list of the corresponding `VizGroup`; a `VizGroup` is dropped (and its
members delivered) when no block references its id any more. -/
structure VizGroupsState where
  column : List LiveBlock
  prev_region_data : Option RegionData
  live_blocks : List (Nat × LiveBlock)
  groups : List (Nat × List RegionData)
  completed_groups : List (List RegionData)
  tolerance : Nat
  next_gid : Nat
deriving Repr

/-- `LiveBlock::y_adjacent` (the sortedness `assert!` is a no-op here; the
theorems carry a sortedness hypothesis instead). -/
def y_adjacent (a b : RegionData) (tol : Nat) : Bool :=
  u32add (u32add a.region_coords_y a.size_y) tol ≥ b.region_coords_y

/-- `LiveBlock::xy_adjacent`: the y-interval overlap test used across
columns (the column-order `assert!` is a no-op here). -/
def xy_adjacent (a b : RegionData) (tol : Nat) : Bool :=
  let a0 := a.region_coords_y
  let a1 := u32add (u32add a0 a.size_y) tol
  let b0 := b.region_coords_y
  let b1 := u32add (u32add b0 b.size_y) tol
  a0 < b1 && a1 ≥ b0

/-- Member lists of all live groups, concatenated. -/
def membersOf (gs : List (Nat × List RegionData)) : List RegionData :=
  (gs.map Prod.snd).flatten

/-- `VizGroup::merge`: the loser's member list is drained into the winner's,
and the loser's (now empty) group disappears on drop.  The live-group
collection of the Rust code is an unordered set of heap cells; the model
keeps the merged entry at the head. -/
def mergeGroups (gs : List (Nat × List RegionData)) (gW gL : Nat) :
    List (Nat × List RegionData) :=
  if gW = gL then gs
  else
    match (gs.find? (fun p => p.1 = gW)) with
    | none => gs
    | some w =>
      let rest := gs.filter (fun p => ¬ p.1 = gW)
      let lms := membersOf (rest.filter (fun p => p.1 = gL))
      (gW, w.2 ++ lms) :: rest.filter (fun p => ¬ p.1 = gL)

/-- Redirect a block that pointed at the merged-out group to the winner
(the back-pointer update loops of `LiveBlock::blocks_touch`). -/
def rebindBlock (gW gL : Nat) (b : LiveBlock) : LiveBlock :=
  if b.gid = gL then { b with gid := gW } else b

/-- `LiveBlock::blocks_touch`: merge the two groups and rebind every block
that referenced the loser. -/
def blocksTouch (σ : VizGroupsState) (gW gL : Nat) : VizGroupsState :=
  if gW = gL then σ
  else
    { σ with
      groups := mergeGroups σ.groups gW gL
      column := σ.column.map (rebindBlock gW gL)
      live_blocks := σ.live_blocks.map (fun p => (p.1, rebindBlock gW gL p.2)) }

/-- Current column block at position `i`. -/
def colBlockD (σ : VizGroupsState) (i : Nat) : LiveBlock :=
  σ.column.getD i dummyBlock

/-- Current live block at position `i` (ascending key order). -/
def liveBlockD (σ : VizGroupsState) (i : Nat) : LiveBlock :=
  (σ.live_blocks.getD i (0, dummyBlock)).2

/-- One comparison of consecutive column entries in `VizGroups::end_column`:
merge their groups when `y_adjacent`. -/
def pairStep (σ : VizGroupsState) (i : Nat) : VizGroupsState :=
  let a := colBlockD σ i
  let b := colBlockD σ (i + 1)
  if y_adjacent a.region_data b.region_data σ.tolerance then
    blocksTouch σ a.gid b.gid
  else σ

/-- The within-column pairwise adjacency sweep of `VizGroups::end_column`. -/
def endColumnPairwise (σ : VizGroupsState) : VizGroupsState :=
  (List.range (σ.column.length - 1)).foldl pairStep σ

/-- The merge-iteration of `VizGroups::check_overlap_live_block_columns`,
walking the live blocks (position `i`) and the column (position `j`) in
ascending `y`.  Group ids are re-read from the current state at every step,
matching the shared-cell semantics of the Rust code. -/
def overlapWalkAux : Nat → Nat → Nat → VizGroupsState → VizGroupsState
  | 0, _, _, σ => σ
  | fuel + 1, i, j, σ =>
    if i < σ.live_blocks.length ∧ j < σ.column.length then
      let p := liveBlockD σ i
      let c := colBlockD σ j
      let σ' :=
        if xy_adjacent p.region_data c.region_data σ.tolerance then
          blocksTouch σ p.gid c.gid
        else σ
      if c.region_data.region_coords_y < p.region_data.region_coords_y then
        overlapWalkAux fuel i (j + 1) σ'
      else
        overlapWalkAux fuel (i + 1) j σ'
    else σ

/-- `VizGroups::check_overlap_live_block_columns`. -/
def checkOverlapLiveBlockColumns (σ : VizGroupsState) : VizGroupsState :=
  overlapWalkAux (σ.live_blocks.length + σ.column.length) 0 0 σ

/-- `LiveBlocks::purge_below_x_limit`: keep the blocks whose right edge
passes the limit (wrapping u32 addition, release semantics). -/
def purgeBelowXLimit (live : List (Nat × LiveBlock)) (x_limit : Nat) :
    List (Nat × LiveBlock) :=
  live.filter (fun p =>
    u32add p.2.region_data.region_coords_x p.2.region_data.size_x > x_limit)

/-- Insertion into the `BTreeMap` of live blocks keyed by `y`: sorted
position, replacing an existing entry with an equal key. -/
def insertLive : List (Nat × LiveBlock) → Nat → LiveBlock →
    List (Nat × LiveBlock)
  | [], y, b => [(y, b)]
  | (k, v) :: rest, y, b =>
    if y < k then (y, b) :: (k, v) :: rest
    else if y = k then (y, b) :: rest
    else (k, v) :: insertLive rest y b

/-- Move the whole column into the live-block map.  The Rust loop pops from
the back of the column vector, so the column is inserted in reverse order. -/
def insertColumn (live : List (Nat × LiveBlock)) (col : List LiveBlock) :
    List (Nat × LiveBlock) :=
  col.reverse.foldl (fun lv b => insertLive lv b.region_data.region_coords_y b) live

/-- Ids of the groups still referenced by some block. -/
def liveGids (σ : VizGroupsState) : List Nat :=
  σ.column.map LiveBlock.gid ++ σ.live_blocks.map (fun p => p.2.gid)

/-- Completion semantics of `impl Drop for VizGroup`: every group that has
lost its last referencing block delivers its (non-empty) member list to the
completed-groups accumulator and disappears. -/
def completeDead (σ : VizGroupsState) : VizGroupsState :=
  let lg := liveGids σ
  { σ with
    groups := σ.groups.filter (fun p => lg.contains p.1)
    completed_groups := σ.completed_groups ++
      ((σ.groups.filter (fun p => ! lg.contains p.1)).map Prod.snd).filter
        (fun l => ! l.isEmpty) }

/-- The final part of `VizGroups::end_column`: purge dead live blocks
against the closing column's x, move the column into the live-block map and
deliver any group that thereby lost its last reference. -/
def endColumnFinish (σ₂ : VizGroupsState) : VizGroupsState :=
  if σ₂.column.isEmpty then { σ₂ with column := [] }
  else
    completeDead
      { σ₂ with
        live_blocks := insertColumn
          (purgeBelowXLimit σ₂.live_blocks
            (colBlockD σ₂ 0).region_data.region_coords_x) σ₂.column
        column := [] }

/-- `VizGroups::end_column`. -/
def endColumn (σ : VizGroupsState) : VizGroupsState :=
  endColumnFinish (checkOverlapLiveBlockColumns (endColumnPairwise σ))

/-- `VizGroups::clear`. -/
def clearState (σ : VizGroupsState) : VizGroupsState :=
  { σ with column := [], prev_region_data := none, live_blocks := [],
           groups := [], completed_groups := [] }

/-- `VizGroups::end_grid`: finish the last column, purge every live block
(the Rust limit is `u32::MAX`), deliver the completed groups and reset. -/
def endGrid (σ : VizGroupsState) : List (List RegionData) × VizGroupsState :=
  let σ₁ := endColumn σ
  let σ₂ := completeDead { σ₁ with live_blocks := purgeBelowXLimit σ₁.live_blocks U32MAX }
  (σ₂.completed_groups, clearState σ₂)

/-- `LiveBlock::new` plus `VizGroup::new`: push a fresh block with a fresh
one-member group onto the current column. -/
def newBlock (σ : VizGroupsState) (r : RegionData) : VizGroupsState :=
  { σ with
    column := σ.column ++ [{ region_data := r, gid := σ.next_gid }]
    groups := σ.groups ++ [(σ.next_gid, [r])]
    next_gid := σ.next_gid + 1
    prev_region_data := some r }

/-- `VizGroups::add_region_data`. -/
def addRegionData (σ : VizGroupsState) (r : RegionData) :
    Option (List (List RegionData)) × VizGroupsState :=
  match σ.prev_region_data with
  | some prev =>
    if r.grid ≠ prev.grid then
      let σ₁ := endColumn σ
      let (res, σ₂) := endGrid σ₁
      (some res, newBlock σ₂ r)
    else if r.region_coords_x ≠ prev.region_coords_x then
      (none, newBlock (endColumn σ) r)
    else (none, newBlock σ r)
  | none => (none, newBlock σ r)

/-- `VizGroups::new`. -/
def vizGroupsNew (detect_corners_touching : Bool) : VizGroupsState :=
  { column := [], prev_region_data := none, live_blocks := [], groups := [],
    completed_groups := [],
    tolerance := if detect_corners_touching then 1 else 0, next_gid := 0 }

/-- Feed a stream of regions through `add_region_data`. -/
def feed (σ : VizGroupsState) (rs : List RegionData) : VizGroupsState :=
  rs.foldl (fun σ r => (addRegionData σ r).2) σ

/-- Feed one grid's stream and call `end_grid`, returning the completed
groups. -/
def runVizGroups (detect_corners_touching : Bool) (rs : List RegionData) :
    List (List RegionData) :=
  (endGrid (feed (vizGroupsNew detect_corners_touching) rs)).1

/-- Multiset of all regions accounted for by a state: delivered groups plus
live group members. -/
def allMembers (σ : VizGroupsState) : List RegionData :=
  σ.completed_groups.flatten ++ membersOf σ.groups

/-- Structural invariant: live group ids are distinct and below the fresh
counter. -/
def GoodState (σ : VizGroupsState) : Prop :=
  (σ.groups.map Prod.fst).Nodup ∧ ∀ p ∈ σ.groups, p.1 < σ.next_gid

/-- The `(x, y)` lexicographic order required of one grid's input stream. -/
def xyLexLE (a b : RegionData) : Prop :=
  a.region_coords_x < b.region_coords_x ∨
  (a.region_coords_x = b.region_coords_x ∧
   a.region_coords_y ≤ b.region_coords_y)

/-- Columns at distinct x do not overlap in x (the `xy_adjacent` assertion
of the Rust code panics when this fails). -/
def noXOverlap (a b : RegionData) : Prop :=
  a.region_coords_x < b.region_coords_x →
  a.region_coords_x + a.size_x ≤ b.region_coords_x

instance : DecidableRel xyLexLE := fun a b =>
  inferInstanceAs (Decidable (a.region_coords_x < b.region_coords_x ∨
    (a.region_coords_x = b.region_coords_x ∧
     a.region_coords_y ≤ b.region_coords_y)))

instance : DecidableRel noXOverlap := fun a b =>
  inferInstanceAs (Decidable (a.region_coords_x < b.region_coords_x →
    a.region_coords_x + a.size_x ≤ b.region_coords_x))

end Viz

namespace RO

/-- `RegionData` as used by `src/rust/src/generator/regionorder.rs` (the
generator's variant carries a `lod` field). -/
structure RegionData where
  grid : String
  region_coords_x : Nat
  region_coords_y : Nat
  size_x : Nat
  size_y : Nat
  name : String
  lod : Nat
deriving DecidableEq, Repr

/-- `RecentRegionType`. -/
inductive RecentRegionType where
  | Unknown
  | Water
  | Land
deriving DecidableEq, Repr

/-- `MAX_LOD`. -/
def MAX_LOD : Nat := 16

/-- `get_group_bounds` (the error cases of the Rust function are reported
via `Option`). -/
def get_group_bounds (group : List RegionData) :
    Option ((Nat × Nat) × (Nat × Nat)) :=
  match group with
  | [] => none
  | g0 :: _ =>
    if group.any (fun v => v.size_x ≠ g0.size_x || v.size_y ≠ g0.size_y) then
      none
    else
      some ((group.foldl (fun acc v => min acc v.region_coords_x) (U32MAX) ,
             group.foldl (fun acc v => min acc v.region_coords_y) (U32MAX)),
            (group.foldl (fun acc v => max acc (v.region_coords_x + v.size_x)) 0,
             group.foldl (fun acc v => max acc (v.region_coords_y + v.size_y)) 0))

/-- `get_group_scan_limits`: pure arithmetic, returns `(new_ll, new_ur, step)`.
The `region_size * 2^lod` products and the `upper_right + step` sums wrap as
u32 (release semantics); the divisions cannot overflow afterwards.  A zero
wrapped step makes the Rust division panic; the model's `Nat` division then
yields 0, and the theorems below carry no-overflow hypotheses instead. -/
def get_group_scan_limits (bounds : (Nat × Nat) × (Nat × Nat))
    (region_size : Nat × Nat) (lod : Nat) :
    (Nat × Nat) × (Nat × Nat) × (Nat × Nat) :=
  let lower_left := bounds.1
  let upper_right := bounds.2
  let lod_mult := 2 ^ lod
  let step := (u32mul region_size.1 lod_mult, u32mul region_size.2 lod_mult)
  let new_ll := (lower_left.1 / step.1 * step.1, lower_left.2 / step.2 * step.2)
  let new_ur := (u32add upper_right.1 step.1 / step.1 * step.1,
                 u32add upper_right.2 step.2 / step.2 * step.2)
  (new_ll, new_ur, step)

/-- `RecentColumnInfo`: the two retained columns of status flags for one LOD.
`region_type_info.1` is the current column (index 0 in the Rust array),
`region_type_info.2` the previous column (index 1). -/
structure RecentColumnInfo where
  size : Nat × Nat
  start : Nat × Nat
  lod_bounds : (Nat × Nat) × (Nat × Nat)
  region_type_info : List RecentRegionType × List RecentRegionType
  full_coverage : Bool
deriving DecidableEq, Repr

/-- `RecentColumnInfo::new`.  Note that the Rust code sizes both columns by
`x_steps` (not `y_steps`), exactly as mirrored here; the `base * 2^lod`
products and the `ur - ll` subtractions wrap as u32 (release semantics). -/
def RecentColumnInfo.new (bounds : (Nat × Nat) × (Nat × Nat))
    (base_region_size : Nat × Nat) (lod : Nat) : RecentColumnInfo :=
  let r := get_group_scan_limits bounds base_region_size lod
  let ll := r.1
  let ur := r.2.1
  let size := r.2.2
  let scale := 2 ^ lod
  let tile_size := (u32mul base_region_size.1 scale, u32mul base_region_size.2 scale)
  let x_steps := u32sub ur.1 ll.1 / tile_size.1
  let y_steps := u32sub ur.2 ll.2 / tile_size.2
  { size := size
    start := ll
    lod_bounds := (ll, ur)
    region_type_info := (List.replicate x_steps RecentRegionType.Unknown,
                         List.replicate x_steps RecentRegionType.Unknown)
    full_coverage := x_steps = 1 && y_steps = 1 }

/-- `RecentColumnInfo::try_calc_y_index`. -/
def RecentColumnInfo.try_calc_y_index (rci : RecentColumnInfo) (y : Nat) :
    Option Nat :=
  let ll_y := rci.lod_bounds.1.2
  if y ≥ ll_y then
    let yix := (y - ll_y) / rci.size.2
    if yix < rci.region_type_info.1.length then some yix else none
  else none

/-- `RecentColumnInfo::calc_y_index` (the panic on a bounds failure is
modelled as the default index 0; all runs below stay in bounds). -/
def RecentColumnInfo.calc_y_index (rci : RecentColumnInfo) (y : Nat) : Nat :=
  (rci.try_calc_y_index y).getD 0

/-- `RecentColumnInfo::shift` (its `assert!` that the current column holds
no `Unknown` is a no-op in the model; `start.0 += size.0` wraps as u32). -/
def RecentColumnInfo.shift (rci : RecentColumnInfo) : RecentColumnInfo :=
  { rci with
    region_type_info :=
      (List.replicate rci.region_type_info.1.length RecentRegionType.Unknown,
       rci.region_type_info.1)
    start := (u32add rci.start.1 rci.size.1, rci.start.2) }

/-- `RecentColumnInfo::is_full_coverage`. -/
def RecentColumnInfo.is_full_coverage (rci : RecentColumnInfo) : Bool :=
  rci.full_coverage

/-- `RecentColumnInfo::test_cell`.  Out-of-window x and out-of-range row
indices fall back to `Water`; the previous-column test `x + size.0 ==
start.0` adds with u32 wrapping (release semantics); the Rust
`assert_eq!(y % size.1, 0)` is a no-op here (the amended C10 theorem
carries it as a hypothesis). -/
def RecentColumnInfo.test_cell (rci : RecentColumnInfo) (loc : Nat × Nat) :
    RecentRegionType :=
  let x := loc.1
  let y := loc.2
  if x = rci.start.1 then
    ((rci.region_type_info.1).get? (y / rci.size.2)).getD RecentRegionType.Water
  else if u32add x rci.size.1 = rci.start.1 then
    ((rci.region_type_info.2).get? (y / rci.size.2)).getD RecentRegionType.Water
  else RecentRegionType.Water

/-- `RecentColumnInfo::test_four_cells` (the `x + size` / `y + size`
query offsets wrap as u32). -/
def RecentColumnInfo.test_four_cells (rci : RecentColumnInfo) (loc : Nat × Nat) :
    RecentRegionType :=
  let x := loc.1
  let y := loc.2
  let s00 := rci.test_cell (x, y)
  let s01 := rci.test_cell (x, u32add y rci.size.2)
  let s10 := rci.test_cell (u32add x rci.size.1, y)
  let s11 := rci.test_cell (u32add x rci.size.1, u32add y rci.size.2)
  if s00 = RecentRegionType.Unknown ∨ s01 = RecentRegionType.Unknown ∨
     s10 = RecentRegionType.Unknown ∨ s11 = RecentRegionType.Unknown then
    RecentRegionType.Unknown
  else if s00 = RecentRegionType.Water ∧ s01 = RecentRegionType.Water ∧
          s10 = RecentRegionType.Water ∧ s11 = RecentRegionType.Water then
    RecentRegionType.Water
  else RecentRegionType.Land

/-- Default region value for out-of-range positional reads. -/
def defaultRegion : RegionData :=
  { grid := "", region_coords_x := 0, region_coords_y := 0,
    size_x := 1, size_y := 1, name := "", lod := 0 }

/-- `AdvanceStatus`. -/
inductive AdvanceStatus where
  | None
  | Progress
  | Data (region : RegionData)
deriving DecidableEq, Repr

/-- `ColumnCursor`: per-LOD scan state. -/
structure ColumnCursor where
  recent_column_info : RecentColumnInfo
  next_y_index : Nat
  region_data_index : Nat
  lod : Nat
  grid : String
deriving DecidableEq, Repr

/-- `ColumnCursor::new`. -/
def ColumnCursor.new (bounds : (Nat × Nat) × (Nat × Nat))
    (base_region_size : Nat × Nat) (lod : Nat) (grid : String) : ColumnCursor :=
  { recent_column_info := RecentColumnInfo.new bounds base_region_size lod
    next_y_index := 0
    region_data_index := 0
    lod := lod
    grid := grid }

/-- A placeholder cursor for out-of-range positional reads. -/
def dummyCursor : ColumnCursor :=
  ColumnCursor.new ((0, 0), (0, 0)) (1, 1) 0 ""

/-- `ColumnCursor::mark_region_type` (duplicate-marking `assert_eq!` is a
no-op in the model). -/
def ColumnCursor.mark_region_type (c : ColumnCursor) (yix : Nat)
    (t : RecentRegionType) : ColumnCursor :=
  { c with recent_column_info :=
      { c.recent_column_info with region_type_info :=
          (c.recent_column_info.region_type_info.1.set yix t,
           c.recent_column_info.region_type_info.2) } }

/-- Fill positions `a ≤ i ≤ b` of the current column with `Water`
(the fill loop inside `mark_as_land` on a column break). -/
def fillWater (col : List RecentRegionType) (a b : Nat) :
    List RecentRegionType :=
  (List.range col.length).map (fun i =>
    if a ≤ i ∧ i ≤ b then RecentRegionType.Water
    else col.getD i RecentRegionType.Unknown)

/-- `ColumnCursor::mark_as_land`; returns `(done, cursor)` where `done`
is the Rust boolean result. -/
def ColumnCursor.mark_as_land (c : ColumnCursor) (loc : Nat × Nat) :
    Bool × ColumnCursor :=
  let step2 := fun (c : ColumnCursor) =>
    let yix := c.recent_column_info.calc_y_index loc.2
    let col := fillWater c.recent_column_info.region_type_info.1
                 c.next_y_index (yix - 1)
    let col := if c.next_y_index ≤ yix - 1 ∧ 0 < yix then col
               else c.recent_column_info.region_type_info.1
    let c := { c with recent_column_info :=
        { c.recent_column_info with region_type_info :=
            (col.set yix RecentRegionType.Land,
             c.recent_column_info.region_type_info.2) } }
    (true, { c with next_y_index := yix + 1 })
  if c.recent_column_info.start.1 < loc.1 then
    let fill_last := c.recent_column_info.region_type_info.1.length - 1
    if c.recent_column_info.region_type_info.1.getD fill_last
        RecentRegionType.Unknown = RecentRegionType.Unknown then
      let col := fillWater c.recent_column_info.region_type_info.1
                   c.next_y_index fill_last
      (false,
        { c with
          recent_column_info :=
            { c.recent_column_info with region_type_info :=
                (col, c.recent_column_info.region_type_info.2) }
          next_y_index := fill_last })
    else
      step2 { c with next_y_index := 0,
                     recent_column_info := c.recent_column_info.shift }
  else step2 c

/-- `ColumnCursor::advance_lod_0`. -/
def ColumnCursor.advance_lod_0 (c : ColumnCursor) (regions : List RegionData) :
    AdvanceStatus × ColumnCursor :=
  match regions.get? c.region_data_index with
  | some region =>
    let loc := (region.region_coords_x, region.region_coords_y)
    let r := c.mark_as_land loc
    if r.1 then
      (AdvanceStatus.Data region,
       { r.2 with region_data_index := r.2.region_data_index + 1 })
    else (AdvanceStatus.Progress, r.2)
  | none => (AdvanceStatus.None, c)

/-- `ColumnCursor::build_new_tile`. -/
def ColumnCursor.build_new_tile (c : ColumnCursor) (loc : Nat × Nat)
    (size : Nat × Nat) : RegionData :=
  { grid := c.grid
    region_coords_x := loc.1
    region_coords_y := loc.2
    size_x := size.1
    size_y := size.2
    name := "???"
    lod := c.lod }

/-- `ColumnCursor::advance_lod_n`. -/
def ColumnCursor.advance_lod_n (c : ColumnCursor)
    (previous_lod_column_info : RecentColumnInfo) :
    AdvanceStatus × ColumnCursor :=
  if c.recent_column_info.start.1 ≥ c.recent_column_info.lod_bounds.2.1 then
    (AdvanceStatus.None, c)
  else
    let c :=
      if c.next_y_index ≥ c.recent_column_info.region_type_info.1.length then
        { c with recent_column_info := c.recent_column_info.shift,
                 next_y_index := 0 }
      else c
    if c.recent_column_info.start.1 ≥ c.recent_column_info.lod_bounds.2.1 then
      (AdvanceStatus.None, c)
    else
      let loc := (c.recent_column_info.start.1,
        u32add c.recent_column_info.start.2
          (u32mul c.recent_column_info.size.2 c.next_y_index))
      match previous_lod_column_info.test_cell loc with
      | RecentRegionType.Unknown => (AdvanceStatus.None, c)
      | RecentRegionType.Land =>
        let c := { c with recent_column_info :=
            { c.recent_column_info with region_type_info :=
                (c.recent_column_info.region_type_info.1.set c.next_y_index
                   RecentRegionType.Land,
                 c.recent_column_info.region_type_info.2) } }
        let new_tile := c.build_new_tile loc c.recent_column_info.size
        (AdvanceStatus.Data new_tile, { c with next_y_index := c.next_y_index + 1 })
      | RecentRegionType.Water =>
        let c := { c with recent_column_info :=
            { c.recent_column_info with region_type_info :=
                (c.recent_column_info.region_type_info.1.set c.next_y_index
                   RecentRegionType.Water,
                 c.recent_column_info.region_type_info.2) } }
        (AdvanceStatus.Progress, { c with next_y_index := c.next_y_index + 1 })

/-- The cursor-construction loop of `ColumnCursors::new`: one cursor per
LOD, stopping after the first LOD whose single tile covers the bounds,
capped at `MAX_LOD`. -/
def buildCursors (bounds : (Nat × Nat) × (Nat × Nat))
    (base_region_size : Nat × Nat) (grid : String) :
    Nat → Nat → List ColumnCursor
  | 0, _ => []
  | fuel + 1, lod =>
    let c := ColumnCursor.new bounds base_region_size lod grid
    if c.recent_column_info.is_full_coverage then [c]
    else c :: buildCursors bounds base_region_size grid fuel (lod + 1)

/-- `ColumnCursors`: all the per-LOD cursors plus the outer iteration state. -/
structure ColumnCursors where
  bounds : (Nat × Nat) × (Nat × Nat)
  cursors : List ColumnCursor
  regions : List RegionData
  working_lod : Nat
  progress_made : Bool
deriving DecidableEq, Repr

/-- `ColumnCursors::new` (the `expect` on invalid bounds is modelled by a
degenerate default; all runs below use valid homogeneous groups). -/
def ColumnCursors.new (regions : List RegionData) : ColumnCursors :=
  let bounds := (get_group_bounds regions).getD ((0, 0), (0, 0))
  let r0 := regions.headD defaultRegion
  let base_region_size := (r0.size_x, r0.size_y)
  let grid := r0.grid
  { bounds := bounds
    cursors := buildCursors bounds base_region_size grid MAX_LOD 0
    regions := regions
    working_lod := 0
    progress_made := false }

/-- One call of `<ColumnCursors as Iterator>::next`, with explicit fuel for
the inner retry loop.  `none` means the fuel ran out (never the case in the
runs below); `some none` is the iterator's `None`; `some (some r)` yields
`r`. -/
def ccNext : Nat → ColumnCursors → Option (Option RegionData) × ColumnCursors
  | 0, s => (none, s)
  | fuel + 1, s =>
    if s.working_lod ≥ s.cursors.length then
      if s.progress_made then
        ccNext fuel { s with progress_made := false, working_lod := 0 }
      else (some none, s)
    else
      let r :=
        if s.working_lod = 0 then
          (s.cursors.getD 0 dummyCursor).advance_lod_0 s.regions
        else
          (s.cursors.getD s.working_lod dummyCursor).advance_lod_n
            (s.cursors.getD (s.working_lod - 1) dummyCursor).recent_column_info
      let s := { s with cursors := s.cursors.set s.working_lod r.2 }
      match r.1 with
      | AdvanceStatus.None =>
        ccNext fuel { s with working_lod := s.working_lod + 1 }
      | AdvanceStatus.Data region =>
        (some (some region), { s with progress_made := true })
      | AdvanceStatus.Progress =>
        ccNext fuel { s with progress_made := true }

/-- Inner-loop fuel bound used for the concrete runs. -/
def CC_FUEL : Nat := 500

/-- Collect the whole output stream of the iterator; `none` when either
fuel bound is hit (never the case in the runs below). -/
def ccCollect : Nat → ColumnCursors → Option (List RegionData)
  | 0, _ => none
  | n + 1, s =>
    match ccNext CC_FUEL s with
    | (some (some r), s') => (ccCollect n s').map (fun l => r :: l)
    | (some none, _) => some []
    | (none, _) => none

/-- Advance the iterator `n` times, discarding outputs (used to name the
intermediate state of a run inside a theorem). -/
def ccStepN : Nat → ColumnCursors → ColumnCursors
  | 0, s => s
  | n + 1, s => ccStepN n (ccNext CC_FUEL s).2

end RO

namespace RO

/-- The full-coverage test computed by `RecentColumnInfo::new`: a single
tile at this LOD spans the scan limits on both axes. -/
def fullCoverageAt (bounds : (Nat × Nat) × (Nat × Nat))
    (base_region_size : Nat × Nat) (lod : Nat) : Bool :=
  (RecentColumnInfo.new bounds base_region_size lod).full_coverage

/-- The LOD search of `ColumnCursors::new`: the first LOD (< `MAX_LOD`)
whose single tile covers the bounds, if any. -/
def enclosingLodAux (bounds : (Nat × Nat) × (Nat × Nat))
    (base_region_size : Nat × Nat) : Nat → Nat → Option Nat
  | 0, _ => none
  | fuel + 1, lod =>
    if fullCoverageAt bounds base_region_size lod then some lod
    else enclosingLodAux bounds base_region_size fuel (lod + 1)

/-- The LOD at which the cursor search of `ColumnCursors::new` stops. -/
def enclosingLod (bounds : (Nat × Nat) × (Nat × Nat))
    (base_region_size : Nat × Nat) : Option Nat :=
  enclosingLodAux bounds base_region_size MAX_LOD 0

/-- Modelled from the spec (for the refinement comparison of C6): a
`2^K x 2^K` cell-square aligned to a multiple of `2^K` cells contains the
half-open bounds.  The only candidate square is the aligned one containing
the lower-left corner. -/
def specSquareContains (bounds : (Nat × Nat) × (Nat × Nat))
    (base_region_size : Nat × Nat) (k : Nat) : Bool :=
  let step := (base_region_size.1 * 2 ^ k, base_region_size.2 * 2 ^ k)
  bounds.2.1 ≤ (bounds.1.1 / step.1 + 1) * step.1 &&
  bounds.2.2 ≤ (bounds.1.2 / step.2 + 1) * step.2

end RO

namespace HF

/-- `HeightField` from `src/rust/src/common/uploadedregioninfo.rs`.
`heights` is the `Array2D<f32>` in row-major form (`heights[row][col]`),
with `f32` values as exact rationals. -/
structure HeightField where
  heights : List (List ℚ)
  size_x : Nat
  size_y : Nat
  water_level : ℚ
deriving DecidableEq, Repr

/-- `Array2D::num_rows`. -/
def numRows (hf : HeightField) : Nat := hf.heights.length

/-- `Array2D::num_columns`. -/
def numCols (hf : HeightField) : Nat := (hf.heights.headD []).length

/-- `Array2D::get(row, col)` with the out-of-bounds panic defaulted to 0
(all runs below stay in bounds). -/
def getAt (m : List (List ℚ)) (row col : Nat) : ℚ :=
  (m.getD row []).getD col 0

/-- `Array2D::set(row, col, v)` (out of bounds is a no-op where the Rust
code would panic; all runs below stay in bounds). -/
def setAt (m : List (List ℚ)) (row col : Nat) (v : ℚ) : List (List ℚ) :=
  m.set row ((m.getD row []).set col v)

/-- `Array2D::filled_with(0.0, rows, cols)`. -/
def filledWith (rows cols : Nat) : List (List ℚ) :=
  List.replicate rows (List.replicate cols (0 : ℚ))

/-- The `set_quadrant` closure of `HeightField::combine`: copy `v` into the
output with the given offsets (`x` ranges over `num_columns`, `y` over
`num_rows`, exactly as in the Rust loop). -/
def setQuadrant (m : List (List ℚ)) (xstart ystart : Nat) (v : List (List ℚ)) :
    List (List ℚ) :=
  (List.range ((v.headD []).length)).foldl (fun m x =>
    (List.range v.length).foldl (fun m y =>
      setAt m (x + xstart) (y + ystart) (getAt v x y)) m) m

/-- One iteration of the quadrant-copy loop of `combine`. -/
def combineStep (ne : HeightField) (h : Option HeightField)
    (off : Nat × Nat) (m : List (List ℚ)) : List (List ℚ) :=
  let xstart := if off.1 = 0 then 0 else numCols ne - 1
  let ystart := if off.2 = 0 then 0 else numRows ne - 1
  match h with
  | some hf => setQuadrant m xstart ystart hf.heights
  | none => m

/-- `HeightField::combine`: order of inputs is ll, lr, ul, ur; `none` models
the `EmptyCombine` error when all four inputs are absent. -/
def combine (h0 h1 h2 h3 : Option HeightField) : Option HeightField :=
  match h0.orElse (fun _ => h1.orElse (fun _ => h2.orElse (fun _ => h3))) with
  | none => none
  | some ne =>
    let cnt_x := numCols ne * 2 - 1
    let cnt_y := numRows ne * 2 - 1
    let m := filledWith cnt_x cnt_y
    let m := combineStep ne h0 (0, 0) m
    let m := combineStep ne h1 (1, 0) m
    let m := combineStep ne h2 (0, 1) m
    let m := combineStep ne h3 (1, 1) m
    some { heights := m
           size_x := ne.size_x * 2
           size_y := ne.size_y * 2
           water_level := ne.water_level }

/-- `elev_to_u8`: quantize an elevation into `0..=255`.  The Rust cast
`as usize` saturates a negative floor at 0 (`Int.toNat`), and the clamp
keeps the value at most 255. -/
def elev_to_u8 (z scale offset : ℚ) : Nat :=
  let z' := if scale > 1 / 1000 then (z - offset) / scale else 0
  min (⌊z' * 256⌋.toNat) 255

/-- `u8_to_elev`: inverse quantization. -/
def u8_to_elev (z : Nat) (scale offset : ℚ) : ℚ :=
  (z : ℚ) / 256 * scale + offset

end HF

namespace SM

/-- Minimum elevation of the grid, `fold(f64::MAX, f64::min)`; for a
non-empty grid this is the fold of `min` from the head. -/
def minZ (elevs : List (List ℚ)) : ℚ :=
  match elevs.flatten with
  | [] => 0
  | a :: rest => rest.foldl rmin a

/-- Maximum elevation of the grid, `fold(f64::MIN, f64::max)`; for a
non-empty grid this is the fold of `max` from the head. -/
def maxZ (elevs : List (List ℚ)) : ℚ :=
  match elevs.flatten with
  | [] => 0
  | a :: rest => rest.foldl rmax a

/-- The clamped divisor of `TerrainSculpt::makeimage`:
`range.max(0.001)`. -/
def sculptRange (elevs : List (List ℚ)) : ℚ :=
  rmax (maxZ elevs - minZ elevs) (1 / 1000)

/-- The z (blue) quantization of one cell in `TerrainSculpt::makeimage`:
`max(0, min(255, ((z - minz) / range * 256).floor()))`. -/
def zPixel (elevs : List (List ℚ)) (x y : Nat) : Nat :=
  let z := (elevs.getD x []).getD y 0
  let zscaled := (z - minZ elevs) / sculptRange elevs
  (imax 0 (imin 255 ⌊zscaled * 256⌋)).toNat

/-- The blue channel of the produced image at pixel `(x, fy)`: the image is
written with the y axis flipped (`flipped_y = len - y - 1`). -/
def bChannel (elevs : List (List ℚ)) (x fy : Nat) : Nat :=
  zPixel elevs x ((elevs.headD []).length - 1 - fy)

end SM

namespace GT

/-- The configuration slice of `TerrainGenerator` relevant to the mesh
path. -/
structure TerrainGeneratorCfg where
  corners_touch_connects : Bool
  generate_mesh : Bool
deriving DecidableEq, Repr

/-- `TerrainGenerator::new(conn, outdir, url_prefix_opt,
corners_touch_connects, generate_mesh)`: the fourth parameter is the corner
flag, the fifth the mesh flag. -/
def terrainGeneratorNew (corners_touch_connects generate_mesh : Bool) :
    TerrainGeneratorCfg :=
  { corners_touch_connects := corners_touch_connects
    generate_mesh := generate_mesh }

/-- The construction in `run`: it passes the positional arguments
`(.., generate_mesh, corners_touch_connects)` with
`corners_touch_connects = false`, i.e. in swapped order relative to the
signature of `TerrainGenerator::new`. -/
def runGeneratorCfg (generate_mesh : Bool) : TerrainGeneratorCfg :=
  let corners_touch_connects := false
  terrainGeneratorNew generate_mesh corners_touch_connects

/-- The two code paths of `TerrainGenerator::build_impostor`. -/
inductive ImpostorPath where
  | meshNotImplemented
  | sculpt
deriving DecidableEq, Repr

/-- `TerrainGenerator::build_impostor` dispatch: the mesh branch ends in
the `todo!("glTF mesh generation is not implemented yet")` panic. -/
def buildImpostorPath (cfg : TerrainGeneratorCfg) : ImpostorPath :=
  if cfg.generate_mesh then ImpostorPath.meshNotImplemented
  else ImpostorPath.sculpt

end GT

/-- A 100 x 100 region of grid "t" (inputs for C1/C3 scenarios). -/
def vizR (x y : Nat) (n : String) : Viz.RegionData :=
  { grid := "t", region_coords_x := x, region_coords_y := y,
    size_x := 100, size_y := 100, name := n }

/-- The plus-pattern stream (scenario 1 of the spec), lex sorted. -/
def plusInput : List Viz.RegionData :=
  [vizR 0 100 "w", vizR 100 0 "s", vizR 100 100 "c", vizR 100 200 "n",
   vizR 200 100 "e"]

/-- First region of the diagonal pair of C3. -/
def c3RegionA : Viz.RegionData := vizR 0 0 "a"

/-- Second region of the diagonal pair of C3. -/
def c3RegionB : Viz.RegionData := vizR 100 100 "b"

/-- A base-size-256 LOD-0 region of grid "g". -/
def roRegion (x y : Nat) : RO.RegionData :=
  { grid := "g", region_coords_x := x, region_coords_y := y, size_x := 256,
    size_y := 256, name := "r", lod := 0 }

/-- A scheduler-built LOD tile (name "???" as in `build_new_tile`). -/
def roLodTile (lod x y s : Nat) : RO.RegionData :=
  { grid := "g", region_coords_x := x, region_coords_y := y, size_x := s,
    size_y := s, name := "???", lod := lod }

/-- The full 4 x 4 all-land group of C4, lex sorted. -/
def c4Input : List RO.RegionData :=
  [roRegion 0 0, roRegion 0 256, roRegion 0 512, roRegion 0 768,
   roRegion 256 0, roRegion 256 256, roRegion 256 512, roRegion 256 768,
   roRegion 512 0, roRegion 512 256, roRegion 512 512, roRegion 512 768,
   roRegion 768 0, roRegion 768 256, roRegion 768 512, roRegion 768 768]

/-- What the iterator actually emits on `c4Input`: the 16 LOD-0 regions in
lex order, then two LOD-1 tiles, and nothing else. -/
def c4ActualOutput : List RO.RegionData :=
  c4Input ++ [roLodTile 1 512 0 512, roLodTile 1 512 512 512]

/-- The three-region L-shaped group of C2, lex sorted. -/
def c2Input : List RO.RegionData :=
  [roRegion 0 0, roRegion 0 256, roRegion 256 0]

/-- Lower-left quadrant for the C5 run: all samples 7, water level 20. -/
def c5LL : HF.HeightField :=
  { heights := [[7, 7, 7], [7, 7, 7], [7, 7, 7]],
    size_x := 256, size_y := 256, water_level := 20 }

/-- Upper-right quadrant for the C5 run: all samples 9, water level 5. -/
def c5UR : HF.HeightField :=
  { heights := [[9, 9, 9], [9, 9, 9], [9, 9, 9]],
    size_x := 256, size_y := 256, water_level := 5 }

/-- Bounds of a 4 x 4 block of 256 m regions (C6 counterexample). -/
def c6Bounds : (Nat × Nat) × (Nat × Nat) := ((0, 0), (1024, 1024))

/-- Homogeneous base region size for C6. -/
def c6Base : Nat × Nat := (256, 256)

/-- Height grid whose elevation range is exactly the 0.001 flat threshold
(C9 counterexample). -/
def c9Elevs : List (List ℚ) := [[0, 1 / 1000]]

/-- A freshly built LOD-0 column state whose bounds start at y = 256
(C10 counterexample). -/
def c10Rci : RO.RecentColumnInfo :=
  RO.RecentColumnInfo.new ((0, 256), (256, 512)) (256, 256) 0

namespace Viz

theorem membersOf_append (a b : List (Nat × List RegionData)) :
    membersOf (a ++ b) = membersOf a ++ membersOf b := by
  simp [membersOf]

theorem membersOf_perm {a b : List (Nat × List RegionData)} (h : a.Perm b) :
    (membersOf a).Perm (membersOf b) :=
  (h.map Prod.snd).flatten

theorem extract_perm (gs : List (Nat × List RegionData)) (g : Nat)
    (w : Nat × List RegionData)
    (hnd : (gs.map Prod.fst).Nodup) (hw : w ∈ gs) (hg : w.1 = g) :
    gs.Perm (w :: gs.filter (fun p => ¬ p.1 = g)) := by
  induction gs with
  | nil => cases hw
  | cons p rest ih =>
    rcases List.mem_cons.mp hw with h | h
    · subst h
      have hrest : rest.filter (fun p => ¬ p.1 = g) = rest := by
        apply List.filter_eq_self.mpr
        intro q hq
        simp only [decide_eq_true_eq]
        intro hq1
        have := (List.nodup_cons.mp hnd).1
        exact this (by simpa [hq1, hg] using List.mem_map_of_mem Prod.fst hq)
      have hfil : (w :: rest).filter (fun p => ¬ p.1 = g) = rest := by
        rw [List.filter_cons_of_neg (by simp [hg]), hrest]
      rw [hfil]
    · have hp1 : ¬ p.1 = g := by
        intro hp1
        have := (List.nodup_cons.mp hnd).1
        apply this
        have : g ∈ rest.map Prod.fst := by
          simpa [hg] using List.mem_map_of_mem Prod.fst h
        simpa [hp1] using this
      have ih' := ih (List.nodup_cons.mp hnd).2 h
      have h1 := ih'.cons p
      have h2 : (p :: w :: rest.filter (fun q => ¬ q.1 = g)).Perm
          (w :: p :: rest.filter (fun q => ¬ q.1 = g)) := List.Perm.swap _ _ _
      have h3 : p :: rest.filter (fun q => ¬ q.1 = g) =
          (p :: rest).filter (fun q => ¬ q.1 = g) := by
        rw [List.filter_cons_of_pos (by simp [hp1])]
      exact (h3 ▸ (h1.trans h2) : _)

theorem filter_not_perm (gs : List (Nat × List RegionData)) (g : Nat) :
    ((gs.filter (fun p => p.1 = g)) ++ gs.filter (fun p => ¬ p.1 = g)).Perm gs := by
  have h := List.filter_append_perm (fun p => decide (p.1 = g)) gs
  have he : gs.filter (fun p => ¬ p.1 = g) =
      gs.filter (fun p => !(decide (p.1 = g))) := by
    apply List.filter_congr
    intro q _
    simp [decide_not]
  rw [he]
  exact h

theorem mergeGroups_members_perm (gs : List (Nat × List RegionData))
    (gW gL : Nat) (hnd : (gs.map Prod.fst).Nodup) :
    (membersOf (mergeGroups gs gW gL)).Perm (membersOf gs) := by
  unfold mergeGroups
  by_cases hwl : gW = gL
  · simp [hwl]
  · simp only [if_neg hwl]
    cases hfind : gs.find? (fun p => p.1 = gW) with
    | none => exact List.Perm.refl _
    | some w =>
      have hw : w ∈ gs := List.mem_of_find?_eq_some hfind
      have hg : w.1 = gW := by
        have := List.find?_some hfind
        simpa using this
      have hA := extract_perm gs gW w hnd hw hg
      set A := gs.filter (fun p => ¬ p.1 = gW) with hAdef
      have hsplit := filter_not_perm A gL
      have h1 : (membersOf gs).Perm (w.2 ++ membersOf A) := membersOf_perm hA
      have h2 : (membersOf A).Perm
          (membersOf (A.filter (fun p => p.1 = gL)) ++
           membersOf (A.filter (fun p => ¬ p.1 = gL))) := by
        have := membersOf_perm hsplit
        rw [membersOf_append] at this
        exact this.symm
      simp only [membersOf, List.map_cons, List.flatten_cons]
      refine List.Perm.symm (h1.trans ?_)
      have h3 := h2.append_left w.2
      refine h3.trans ?_
      rw [← List.append_assoc]
      exact List.Perm.refl _

theorem mergeGroups_keys_nodup (gs : List (Nat × List RegionData))
    (gW gL : Nat) (hnd : (gs.map Prod.fst).Nodup) :
    ((mergeGroups gs gW gL).map Prod.fst).Nodup := by
  unfold mergeGroups
  by_cases hwl : gW = gL
  · simpa [hwl] using hnd
  · simp only [if_neg hwl]
    cases hfind : gs.find? (fun p => p.1 = gW) with
    | none => exact hnd
    | some w =>
      simp only [List.map_cons, List.nodup_cons]
      constructor
      · intro hmem
        rcases List.mem_map.mp hmem with ⟨q, hq, hq1⟩
        have hq' := List.mem_filter.mp hq
        have hq'' := List.mem_filter.mp hq'.1
        have : ¬ q.1 = gW := by simpa using hq''.2
        exact this hq1
      · have hsub : ((gs.filter (fun p => ¬ p.1 = gW)).filter
            (fun p => ¬ p.1 = gL)).Sublist gs :=
          ((List.filter_sublist _).trans (List.filter_sublist _))
        exact hnd.sublist (hsub.map Prod.fst)

theorem mergeGroups_bound (gs : List (Nat × List RegionData))
    (gW gL n : Nat) (hb : ∀ p ∈ gs, p.1 < n) :
    ∀ p ∈ mergeGroups gs gW gL, p.1 < n := by
  unfold mergeGroups
  by_cases hwl : gW = gL
  · simpa [hwl] using hb
  · simp only [if_neg hwl]
    cases hfind : gs.find? (fun p => p.1 = gW) with
    | none => exact hb
    | some w =>
      intro p hp
      rcases List.mem_cons.mp hp with h | h
      · have hw : w ∈ gs := List.mem_of_find?_eq_some hfind
        have hg : w.1 = gW := by simpa using List.find?_some hfind
        have := hb w hw
        simp [h, ← hg, this]
      · have hq := (List.mem_filter.mp ((List.mem_filter.mp h).1)).1
        exact hb p hq

theorem blocksTouch_props (σ : VizGroupsState) (gW gL : Nat)
    (h : GoodState σ) :
    GoodState (blocksTouch σ gW gL) ∧
    (allMembers (blocksTouch σ gW gL)).Perm (allMembers σ) := by
  unfold blocksTouch
  by_cases hwl : gW = gL
  · simp only [if_pos hwl]
    exact ⟨h, List.Perm.refl _⟩
  · simp only [if_neg hwl]
    refine ⟨⟨mergeGroups_keys_nodup _ _ _ h.1, mergeGroups_bound _ _ _ _ h.2⟩, ?_⟩
    unfold allMembers
    exact (mergeGroups_members_perm σ.groups gW gL h.1).append_left _

theorem pairStep_props (σ : VizGroupsState) (i : Nat) (h : GoodState σ) :
    GoodState (pairStep σ i) ∧ (allMembers (pairStep σ i)).Perm (allMembers σ) := by
  unfold pairStep
  by_cases hadj : y_adjacent (colBlockD σ i).region_data
      (colBlockD σ (i+1)).region_data σ.tolerance
  · simp only [if_pos hadj]
    exact blocksTouch_props σ _ _ h
  · simp only [if_neg hadj]
    exact ⟨h, List.Perm.refl _⟩

theorem foldl_pairStep_props (l : List Nat) (σ : VizGroupsState) (h : GoodState σ) :
    GoodState (l.foldl pairStep σ) ∧
    (allMembers (l.foldl pairStep σ)).Perm (allMembers σ) := by
  induction l generalizing σ with
  | nil => exact ⟨h, List.Perm.refl _⟩
  | cons a l ih =>
    have h1 := pairStep_props σ a h
    have h2 := ih (pairStep σ a) h1.1
    exact ⟨h2.1, h2.2.trans h1.2⟩

theorem overlapWalkAux_props (fuel : Nat) :
    ∀ (i j : Nat) (σ : VizGroupsState), GoodState σ →
    GoodState (overlapWalkAux fuel i j σ) ∧
    (allMembers (overlapWalkAux fuel i j σ)).Perm (allMembers σ) := by
  induction fuel with
  | zero => exact fun i j σ h => ⟨h, List.Perm.refl _⟩
  | succ fuel ih =>
    intro i j σ h
    unfold overlapWalkAux
    by_cases hb : i < σ.live_blocks.length ∧ j < σ.column.length
    · simp only [if_pos hb]
      by_cases hadj : xy_adjacent (liveBlockD σ i).region_data
          (colBlockD σ j).region_data σ.tolerance
      · simp only [if_pos hadj]
        have h1 := blocksTouch_props σ (liveBlockD σ i).gid (colBlockD σ j).gid h
        by_cases hy : (colBlockD σ j).region_data.region_coords_y <
            (liveBlockD σ i).region_data.region_coords_y
        · simp only [if_pos hy]
          have h2 := ih i (j+1) _ h1.1
          exact ⟨h2.1, h2.2.trans h1.2⟩
        · simp only [if_neg hy]
          have h2 := ih (i+1) j _ h1.1
          exact ⟨h2.1, h2.2.trans h1.2⟩
      · simp only [if_neg hadj]
        by_cases hy : (colBlockD σ j).region_data.region_coords_y <
            (liveBlockD σ i).region_data.region_coords_y
        · simp only [if_pos hy]
          exact ih i (j+1) _ h
        · simp only [if_neg hy]
          exact ih (i+1) j _ h
    · simp only [if_neg hb]
      exact ⟨h, List.Perm.refl _⟩

theorem checkOverlap_props (σ : VizGroupsState) (h : GoodState σ) :
    GoodState (checkOverlapLiveBlockColumns σ) ∧
    (allMembers (checkOverlapLiveBlockColumns σ)).Perm (allMembers σ) := by
  unfold checkOverlapLiveBlockColumns
  exact overlapWalkAux_props _ 0 0 σ h

theorem flatten_filter_not_isEmpty (L : List (List RegionData)) :
    (L.filter (fun l => ! l.isEmpty)).flatten = L.flatten := by
  induction L with
  | nil => rfl
  | cons a L ih =>
    by_cases ha : a = []
    · rw [List.filter_cons_of_neg (by simp [ha]), ih, ha, List.flatten_cons]
      rfl
    · rw [List.filter_cons_of_pos (by simp [List.isEmpty_iff, ha]),
        List.flatten_cons, List.flatten_cons, ih]

theorem bool_filter_split_perm (p : Nat × List RegionData → Bool)
    (gs : List (Nat × List RegionData)) :
    ((gs.filter (fun q => ! p q)) ++ gs.filter p).Perm gs := by
  have h := List.filter_append_perm p gs
  exact (List.perm_append_comm.trans h)

theorem completeDead_props (σ : VizGroupsState) (h : GoodState σ) :
    GoodState (completeDead σ) ∧
    (allMembers (completeDead σ)).Perm (allMembers σ) := by
  unfold completeDead
  constructor
  · constructor
    · exact h.1.sublist ((List.filter_sublist _).map Prod.fst)
    · intro p hp
      exact h.2 p (List.mem_filter.mp hp).1
  · unfold allMembers
    simp only [List.flatten_append, flatten_filter_not_isEmpty]
    have h1 : (membersOf (σ.groups.filter (fun q => ! (liveGids σ).contains q.1)) ++
        membersOf (σ.groups.filter (fun q => (liveGids σ).contains q.1))).Perm
        (membersOf σ.groups) := by
      rw [← membersOf_append]
      exact membersOf_perm (bool_filter_split_perm
        (fun q => (liveGids σ).contains q.1) σ.groups)
    have h2 := h1.append_left σ.completed_groups.flatten
    rw [← List.append_assoc] at h2
    exact h2

theorem endColumnFinish_props (σ₂ : VizGroupsState) (h : GoodState σ₂) :
    GoodState (endColumnFinish σ₂) ∧
    (allMembers (endColumnFinish σ₂)).Perm (allMembers σ₂) ∧
    (endColumnFinish σ₂).column = [] := by
  unfold endColumnFinish
  by_cases hemp : σ₂.column.isEmpty
  · rw [if_pos hemp]
    exact ⟨h, List.Perm.refl _, rfl⟩
  · rw [if_neg hemp]
    have h3 := completeDead_props
      { σ₂ with
        live_blocks := insertColumn
          (purgeBelowXLimit σ₂.live_blocks
            (colBlockD σ₂ 0).region_data.region_coords_x) σ₂.column
        column := [] } h
    exact ⟨h3.1, h3.2, rfl⟩

theorem endColumn_props (σ : VizGroupsState) (h : GoodState σ) :
    GoodState (endColumn σ) ∧
    (allMembers (endColumn σ)).Perm (allMembers σ) ∧
    (endColumn σ).column = [] := by
  unfold endColumn
  have h1 := foldl_pairStep_props (List.range (σ.column.length - 1)) σ h
  have h2 := checkOverlap_props (endColumnPairwise σ) h1.1
  have h3 := endColumnFinish_props (checkOverlapLiveBlockColumns (endColumnPairwise σ)) h2.1
  exact ⟨h3.1, h3.2.1.trans (h2.2.trans h1.2), h3.2.2⟩

end Viz

namespace Viz

theorem newBlock_props (σ : VizGroupsState) (r : RegionData) (h : GoodState σ) :
    GoodState (newBlock σ r) ∧
    (allMembers (newBlock σ r)).Perm (allMembers σ ++ [r]) ∧
    (newBlock σ r).prev_region_data = some r := by
  refine ⟨⟨?_, ?_⟩, ?_, rfl⟩
  · simp only [newBlock, List.map_append, List.map_cons, List.map_nil]
    rw [List.nodup_append]
    refine ⟨h.1, List.nodup_singleton _, ?_⟩
    intro a ha hb
    have hb' : a = σ.next_gid := by simpa using hb
    rcases List.mem_map.mp ha with ⟨q, hq, hq1⟩
    have := h.2 q hq
    omega
  · intro p hp
    simp only [newBlock] at hp
    rcases List.mem_append.mp hp with h' | h'
    · have := h.2 p h'
      simp only [newBlock]
      omega
    · have : p = (σ.next_gid, [r]) := by simpa using h'
      simp [newBlock, this]
  · unfold allMembers newBlock
    exact List.Perm.of_eq (by simp [membersOf])

theorem addRegionData_props (σ : VizGroupsState) (r : RegionData)
    (h : GoodState σ)
    (hgrid : ∀ p, σ.prev_region_data = some p → p.grid = r.grid) :
    GoodState (addRegionData σ r).2 ∧
    ((allMembers (addRegionData σ r).2).Perm (allMembers σ ++ [r])) ∧
    (addRegionData σ r).2.prev_region_data = some r := by
  unfold addRegionData
  cases hprev : σ.prev_region_data with
  | none =>
    simp only
    exact newBlock_props σ r h
  | some p =>
    have hpg : p.grid = r.grid := hgrid p hprev
    simp only [if_neg (by simp [hpg] : ¬ r.grid ≠ p.grid)]
    by_cases hx : r.region_coords_x ≠ p.region_coords_x
    · simp only [if_pos hx]
      have he := endColumn_props σ h
      have hn := newBlock_props (endColumn σ) r he.1
      exact ⟨hn.1, hn.2.1.trans (he.2.1.append_right [r]), hn.2.2⟩
    · simp only [if_neg hx]
      exact newBlock_props σ r h

theorem feed_props (g : String) (rs : List RegionData) :
    ∀ (σ : VizGroupsState), GoodState σ → (∀ r ∈ rs, r.grid = g) →
    (∀ p, σ.prev_region_data = some p → p.grid = g) →
    GoodState (feed σ rs) ∧ (allMembers (feed σ rs)).Perm (allMembers σ ++ rs) := by
  induction rs with
  | nil =>
    intro σ h _ _
    exact ⟨h, List.Perm.of_eq (by simp [feed])⟩
  | cons r rest ih =>
    intro σ h hg hprev
    have hr : r.grid = g := hg r (List.mem_cons_self r rest)
    have ha := addRegionData_props σ r h
      (fun p hp => by rw [hprev p hp, hr])
    have hih := ih (addRegionData σ r).2 ha.1
      (fun q hq => hg q (List.mem_cons_of_mem r hq))
      (fun p hp => by rw [ha.2.2] at hp; cases hp; exact hr)
    refine ⟨hih.1, ?_⟩
    have hfe : (feed σ (r :: rest)) = feed (addRegionData σ r).2 rest := rfl
    rw [hfe]
    refine hih.2.trans ?_
    have h2 := ha.2.1.append_right rest
    rw [List.append_assoc] at h2
    simpa using h2

theorem purge_u32max (l : List (Nat × LiveBlock)) :
    purgeBelowXLimit l U32MAX = [] := by
  apply List.filter_eq_nil_iff.mpr
  intro p _
  simp only [decide_eq_true_eq, not_lt, U32MAX, u32add, U32MOD]
  omega

theorem endGrid_flatten_perm (σ : VizGroupsState) (h : GoodState σ) :
    ((endGrid σ).1.flatten).Perm (allMembers σ) := by
  unfold endGrid
  have he := endColumn_props σ h
  have hGτ : GoodState { endColumn σ with
      live_blocks := purgeBelowXLimit (endColumn σ).live_blocks U32MAX } := he.1
  have hc := completeDead_props _ hGτ
  have hlg : liveGids { endColumn σ with
      live_blocks := purgeBelowXLimit (endColumn σ).live_blocks U32MAX } = [] := by
    simp [liveGids, purge_u32max, he.2.2]
  have hgroups : (completeDead { endColumn σ with
      live_blocks := purgeBelowXLimit (endColumn σ).live_blocks U32MAX }).groups = [] := by
    simp [completeDead, hlg]
  have hall : allMembers (completeDead { endColumn σ with
      live_blocks := purgeBelowXLimit (endColumn σ).live_blocks U32MAX }) =
      (completeDead { endColumn σ with
        live_blocks := purgeBelowXLimit (endColumn σ).live_blocks U32MAX
      }).completed_groups.flatten := by
    unfold allMembers
    rw [hgroups]
    simp [membersOf]
  simp only
  rw [← hall]
  exact hc.2.trans he.2.1

theorem runVizGroups_flatten_perm (corners : Bool) (g : String)
    (rs : List RegionData) (hgrid : ∀ r ∈ rs, r.grid = g) :
    ((runVizGroups corners rs).flatten).Perm rs := by
  unfold runVizGroups
  have hinit : GoodState (vizGroupsNew corners) := by
    constructor
    · simp [vizGroupsNew]
    · intro p hp
      simp [vizGroupsNew] at hp
  have hfeed := feed_props g rs (vizGroupsNew corners) hinit hgrid
    (fun p hp => by simp [vizGroupsNew] at hp)
  have hend := endGrid_flatten_perm (feed (vizGroupsNew corners) rs) hfeed.1
  refine hend.trans ?_
  refine hfeed.2.trans ?_
  have hm : allMembers (vizGroupsNew corners) = [] := rfl
  rw [hm]
  simp

end Viz

/-- C1: for a lex-ordered single-grid stream fed to `add_region_data`, the
groups returned by `end_grid` partition the input: their concatenation is a
permutation of the stream, and for duplicate-free streams the groups are
pairwise disjoint.  The non-overlap hypothesis rules out the inputs on
which the Rust `xy_adjacent` assertion panics. -/
theorem c1_completed_groups_partition (corners : Bool) (g : String)
    (rs : List Viz.RegionData)
    (hgrid : ∀ r ∈ rs, r.grid = g)
    (hsorted : List.Chain' Viz.xyLexLE rs)
    (hnovl : List.Pairwise Viz.noXOverlap rs) :
    ((Viz.runVizGroups corners rs).flatten).Perm rs ∧
    (rs.Nodup → List.Pairwise List.Disjoint (Viz.runVizGroups corners rs)) := by
  have hperm := Viz.runVizGroups_flatten_perm corners g rs hgrid
  refine ⟨hperm, fun hnd => ?_⟩
  have hn : ((Viz.runVizGroups corners rs).flatten).Nodup := hperm.nodup_iff.mpr hnd
  exact (List.nodup_flatten.mp hn).2

/-- Witness for C1 at the plus-pattern stream. -/
theorem c1_completed_groups_partition_witness :
    (∀ r ∈ plusInput, r.grid = "t") ∧ List.Chain' Viz.xyLexLE plusInput ∧
    List.Pairwise Viz.noXOverlap plusInput ∧
    ((Viz.runVizGroups false plusInput).flatten).Perm plusInput :=
  ⟨by decide,
   by simp [plusInput, vizR, List.chain'_cons, Viz.xyLexLE],
   by simp [plusInput, vizR, List.pairwise_cons, Viz.noXOverlap],
   (c1_completed_groups_partition false "t" plusInput (by decide)
     (by simp [plusInput, vizR, List.chain'_cons, Viz.xyLexLE])
     (by simp [plusInput, vizR, List.pairwise_cons, Viz.noXOverlap])).1⟩

/-- C3 (code bug): with `corners_touch = false` the diagonal pair is merged
into a single completed group of two regions, although the module doc
states corner contacts must not connect on Second Life; with
`corners_touch = true` the single group is expected. -/
theorem c3_diagonal_pair_eval :
    Viz.runVizGroups false [c3RegionA, c3RegionB] = [[c3RegionA, c3RegionB]] ∧
    Viz.runVizGroups true [c3RegionA, c3RegionB] = [[c3RegionA, c3RegionB]] := by
  constructor
  · rfl
  · rfl

/-- C4 (code bug): on the 4 x 4 all-land group the iterator emits the 16
LOD-0 descriptors in lex order but then only two LOD-1 tiles and no LOD-2
tile, instead of the specified 4 LOD-1 tiles and one LOD-2 tile. -/
theorem c4_scheduler_output_eval :
    RO.ccCollect 100 (RO.ColumnCursors.new c4Input) = some c4ActualOutput ∧
    c4ActualOutput.length = 18 := by
  constructor
  · rfl
  · rfl

/-- C2 (code bug): after the three LOD-0 emissions on `c2Input`, the fourth
`next()` yields the LOD-1 descriptor (0,0,512,512) while its LOD-0 child
cell (256,256) is still `Unknown` in the scheduler's column state
(`test_four_cells` at (0,0) agrees that the quadrant is still unknown). -/
theorem c2_lod1_emitted_while_child_unknown :
    (RO.ccNext RO.CC_FUEL (RO.ccStepN 3 (RO.ColumnCursors.new c2Input))).1 =
      some (some (roLodTile 1 0 0 512)) ∧
    ((RO.ccStepN 3 (RO.ColumnCursors.new c2Input)).cursors.getD 0
        RO.dummyCursor).recent_column_info.test_cell (256, 256) =
      RO.RecentRegionType.Unknown ∧
    ((RO.ccStepN 3 (RO.ColumnCursors.new c2Input)).cursors.getD 0
        RO.dummyCursor).recent_column_info.test_four_cells (0, 0) =
      RO.RecentRegionType.Unknown := by
  refine ⟨rfl, rfl, rfl⟩

/-- C5 (code bug): combining a present lower-left quadrant (water level 20)
with a present upper-right quadrant (water level 5) yields water level 20
(the first present quadrant's, not the minimum 5) and fills the missing
lower-right area with elevation 0 (not the minimum water level); sizes are
doubled and the all-absent call is an error, as claimed. -/
theorem c5_combine_eval :
    ((HF.combine (some c5LL) none none (some c5UR)).map
      (fun hf => (hf.water_level, hf.size_x, hf.size_y,
        HF.getAt hf.heights 4 0))) = some (20, 512, 512, 0) ∧
    min (20 : ℚ) 5 = 5 ∧
    HF.combine none none none none = none := by
  refine ⟨rfl, by norm_num, rfl⟩

/-- C8 (code bug): `run` passes `(generate_mesh, corners_touch_connects)`
to `TerrainGenerator::new`, whose parameters are in the opposite order, so
the `-m` flag sets the corner rule instead and `build_impostor` takes the
sculpt path; the `NotImplemented` mesh path is never reached. -/
theorem c8_mesh_flag_takes_sculpt_path :
    (GT.runGeneratorCfg true).generate_mesh = false ∧
    (GT.runGeneratorCfg true).corners_touch_connects = true ∧
    GT.buildImpostorPath (GT.runGeneratorCfg true) = GT.ImpostorPath.sculpt := by
  refine ⟨rfl, rfl, rfl⟩

/-- Counterexample for C6: on the 4 x 4 block bounds an aligned 4 x 4 cell
square (K = 2) already contains the bounds, but the cursor search stops
only at K = 3, so the computed K is not the smallest one. -/
theorem c6_counterexample_not_smallest :
    RO.enclosingLod c6Bounds c6Base = some 3 ∧
    RO.specSquareContains c6Bounds c6Base 2 = true := by
  refine ⟨rfl, rfl⟩

/-- Counterexample for C9: a height grid whose range equals the 0.001 flat
threshold satisfies the claim's premise, yet one pixel's blue channel is
255, not 0. -/
theorem c9_counterexample_threshold_pixel :
    SM.maxZ c9Elevs - SM.minZ c9Elevs ≤ 1 / 1000 ∧
    SM.bChannel c9Elevs 0 0 = 255 := by
  have hmin : SM.minZ c9Elevs = rmin 0 (1 / 1000) := rfl
  have hmax : SM.maxZ c9Elevs = rmax 0 (1 / 1000) := rfl
  have hmin' : SM.minZ c9Elevs = 0 := by
    rw [hmin]
    unfold rmin
    rw [if_pos (by norm_num)]
  have hmax' : SM.maxZ c9Elevs = 1 / 1000 := by
    rw [hmax]
    unfold rmax
    rw [if_pos (by norm_num)]
  have hrange : SM.sculptRange c9Elevs = 1 / 1000 := by
    unfold SM.sculptRange
    rw [hmin', hmax']
    unfold rmax
    rw [if_pos (by norm_num)]
  constructor
  · rw [hmin', hmax']
    norm_num
  · show SM.zPixel c9Elevs 0 1 = 255
    unfold SM.zPixel
    rw [hmin', hrange]
    have hz : ((c9Elevs.getD 0 []).getD 1 0) = 1 / 1000 := rfl
    rw [hz]
    dsimp only
    have : ((1 : ℚ) / 1000 - 0) / (1 / 1000) * 256 = 256 := by norm_num
    rw [this]
    have hfl : ⌊(256 : ℚ)⌋ = 256 := by norm_num
    rw [hfl]
    unfold imin imax
    norm_num
    decide

/-- Counterexample for C10: in a fresh LOD-0 column state whose bounds
start at y = 256, the query (0, 0) has x equal to the current column's
start x, and its claimed row index (0 - 256) / 256 is negative, hence
outside the stored column, yet `test_cell` returns `Unknown`, not `Water`
(the code indexes rows by `y / size.y` without subtracting the lower
bound). -/
theorem c10_counterexample_unknown_outside_window :
    c10Rci.start = (0, 256) ∧ c10Rci.size = (256, 256) ∧
    c10Rci.region_type_info.1.length = 2 ∧
    ((0 : Int) - 256) / 256 < 0 ∧
    c10Rci.test_cell (0, 0) = RO.RecentRegionType.Unknown := by
  refine ⟨rfl, rfl, rfl, by norm_num, rfl⟩

/-- Amended C10: `test_cell` returns `Water` (never `Unknown`) when x
matches neither the current column's start x nor (under the code's
wrapping u32 addition) the previous column's x, and likewise when x is in
the window but the row index `y / size.y` (the code does not subtract the
bounds' lower y) is at or beyond both stored column lengths, for
aligned y. -/
theorem c10_amended_outside_window_is_water (rci : RO.RecentColumnInfo)
    (x y : Nat)
    (h : (x ≠ rci.start.1 ∧ u32add x rci.size.1 ≠ rci.start.1) ∨
         (rci.size.2 ∣ y ∧ rci.region_type_info.1.length ≤ y / rci.size.2 ∧
          rci.region_type_info.2.length ≤ y / rci.size.2)) :
    rci.test_cell (x, y) = RO.RecentRegionType.Water := by
  unfold RO.RecentColumnInfo.test_cell
  by_cases h1 : x = rci.start.1
  · simp only [if_pos h1]
    rcases h with ⟨hne, _⟩ | ⟨_, hlen, _⟩
    · exact absurd h1 hne
    · rw [List.get?_eq_none.mpr hlen]
      rfl
  · simp only [if_neg h1]
    by_cases h2 : u32add x rci.size.1 = rci.start.1
    · simp only [if_pos h2]
      rcases h with ⟨_, hne⟩ | ⟨_, _, hlen⟩
      · exact absurd h2 hne
      · rw [List.get?_eq_none.mpr hlen]
        rfl
    · simp only [if_neg h2]

/-- Witness for the amended C10 at a query far outside the window. -/
theorem c10_amended_witness :
    (999 ≠ c10Rci.start.1 ∧ u32add 999 c10Rci.size.1 ≠ c10Rci.start.1) ∧
    c10Rci.test_cell (999, 0) = RO.RecentRegionType.Water :=
  ⟨by decide,
   c10_amended_outside_window_is_water c10Rci 999 0 (Or.inl (by decide))⟩

namespace SM

/-- Folding `rmin` over a constant list keeps the constant. -/
theorem foldl_rmin_const (c : ℚ) (l : List ℚ) :
    ∀ a, (∀ v ∈ l, v = c) → a = c → l.foldl rmin a = c := by
  induction l with
  | nil =>
    intro a _ ha
    exact ha
  | cons v l ih =>
    intro a hl ha
    have hv : v = c := hl v (List.mem_cons_self v l)
    refine ih _ (fun u hu => hl u (List.mem_cons_of_mem v hu)) ?_
    rw [ha, hv]
    unfold rmin
    rw [if_pos le_rfl]

/-- On a grid whose entries all equal `c`, `minZ` returns `c` (for a
non-empty grid). -/
theorem minZ_const (elevs : List (List ℚ)) (c : ℚ)
    (hflat : ∀ row ∈ elevs, ∀ z ∈ row, z = c)
    (hne : elevs.flatten ≠ []) : minZ elevs = c := by
  have hj : ∀ v ∈ elevs.flatten, v = c := by
    intro v hv
    rcases List.mem_flatten.mp hv with ⟨row, hrow, hvrow⟩
    exact hflat row hrow v hvrow
  unfold minZ
  cases hfl : elevs.flatten with
  | nil => exact absurd hfl hne
  | cons a rest =>
    have ha : a = c := hj a (hfl ▸ List.mem_cons_self a rest)
    exact foldl_rmin_const c rest a
      (fun v hv => hj v (hfl ▸ List.mem_cons_of_mem a hv)) ha

end SM

/-- Amended C9: for every height grid whatsoever, the sculpt quantization
divisor is at least 1/1000 (so the quantization never divides by zero);
and for an exactly flat rectangular height grid (all entries equal) every
pixel's blue channel is 0. -/
theorem c9_amended_flat_field_b_zero (elevs : List (List ℚ)) (c : ℚ)
    (hrect : ∀ row ∈ elevs, row.length = (elevs.headD []).length)
    (hflat : ∀ row ∈ elevs, ∀ z ∈ row, z = c) :
    (∀ es : List (List ℚ), 1 / 1000 ≤ SM.sculptRange es) ∧
    ∀ x fy, x < elevs.length → fy < (elevs.headD []).length →
      SM.bChannel elevs x fy = 0 := by
  constructor
  · intro es
    unfold SM.sculptRange rmax
    by_cases h : SM.maxZ es - SM.minZ es ≤ 1 / 1000
    · rw [if_pos h]
    · rw [if_neg h]
      linarith [not_le.mp h]
  · intro x fy hx hfy
    unfold SM.bChannel SM.zPixel
    set h := (elevs.headD []).length with hh
    set y := h - 1 - fy with hy
    have hrow : elevs.getD x [] = elevs[x] := List.getD_eq_getElem elevs [] hx
    have hrowmem : elevs[x] ∈ elevs := List.getElem_mem hx
    have hrowlen : elevs[x].length = h := hrect _ hrowmem
    have hylt : y < elevs[x].length := by
      rw [hrowlen, hy]
      omega
    have hzget : (elevs.getD x []).getD y 0 = elevs[x][y] := by
      rw [hrow]
      exact List.getD_eq_getElem _ _ hylt
    have hzc : (elevs.getD x []).getD y 0 = c := by
      rw [hzget]
      exact hflat _ hrowmem _ (List.getElem_mem hylt)
    have hne : elevs.flatten ≠ [] := by
      intro hemp
      have : elevs[x] = [] := (List.flatten_eq_nil_iff.mp hemp) _ hrowmem
      rw [this] at hylt
      simp at hylt
    have hmin : SM.minZ elevs = c := SM.minZ_const elevs c hflat hne
    rw [hzc, hmin]
    simp only [sub_self, zero_div, zero_mul, Int.floor_zero]
    unfold imin imax
    rw [if_neg (by norm_num : ¬ (255 : ℤ) ≤ 0), if_pos le_rfl]
    rfl

/-- Witness for the amended C9: the divisor bound instantiated at a
non-flat grid, and the zero blue channel on a concrete flat 1 x 2 grid. -/
theorem c9_amended_witness :
    1 / 1000 ≤ SM.sculptRange [[(0 : ℚ), 7]] ∧
    SM.bChannel [[(5 : ℚ), 5]] 0 0 = 0 :=
  ⟨(c9_amended_flat_field_b_zero [[(5 : ℚ), 5]] 5 (by simp) (by simp)).1
     [[(0 : ℚ), 7]],
   (c9_amended_flat_field_b_zero [[(5 : ℚ), 5]] 5 (by simp) (by simp)).2 0 0
     (by simp) (by simp)⟩

/-- C7: for scale > 1/1000 and an elevation within [offset, offset + scale],
quantizing and converting back lands within one quantum (scale/256) of the
original elevation. -/
theorem c7_quantization_roundtrip (scale offset z : ℚ)
    (hs : 1 / 1000 < scale) (h1 : offset ≤ z) (h2 : z ≤ offset + scale) :
    z - scale / 256 ≤ HF.u8_to_elev (HF.elev_to_u8 z scale offset) scale offset ∧
    HF.u8_to_elev (HF.elev_to_u8 z scale offset) scale offset ≤ z + scale / 256 := by
  have hs0 : 0 < scale := lt_trans (by norm_num) hs
  have hsne : scale ≠ 0 := ne_of_gt hs0
  set t : ℚ := (z - offset) / scale with ht
  have ht0 : 0 ≤ t := div_nonneg (by linarith) (le_of_lt hs0)
  have ht1 : t ≤ 1 := by
    rw [ht, div_le_one hs0]
    linarith
  have htz : t * scale = z - offset := div_mul_cancel₀ _ hsne
  have hu : HF.elev_to_u8 z scale offset = min (⌊t * 256⌋.toNat) 255 := by
    unfold HF.elev_to_u8
    rw [if_pos hs]
  have hn0 : (0 : ℤ) ≤ ⌊t * 256⌋ := Int.floor_nonneg.mpr (by positivity)
  by_cases hc : ⌊t * 256⌋ ≤ 255
  · have hb : min (⌊t * 256⌋.toNat) 255 = ⌊t * 256⌋.toNat := by
      apply min_eq_left
      omega
    have hbq : ((⌊t * 256⌋.toNat : ℕ) : ℚ) = ((⌊t * 256⌋ : ℤ) : ℚ) := by
      exact_mod_cast Int.toNat_of_nonneg hn0
    have hfl1 : ((⌊t * 256⌋ : ℤ) : ℚ) ≤ t * 256 := Int.floor_le _
    have hfl2 : t * 256 - 1 < ((⌊t * 256⌋ : ℤ) : ℚ) := Int.sub_one_lt_floor _
    unfold HF.u8_to_elev
    rw [hu, hb, hbq]
    constructor
    · nlinarith [hfl2, hs0]
    · nlinarith [hfl1, hs0]
  · have h256 : (256 : ℤ) ≤ ⌊t * 256⌋ := by omega
    have h256q : (256 : ℚ) ≤ t * 256 := by
      have hq : ((256 : ℤ) : ℚ) ≤ ((⌊t * 256⌋ : ℤ) : ℚ) := by exact_mod_cast h256
      have := Int.floor_le (t * 256)
      push_cast at hq
      linarith
    have ht1' : 1 ≤ t := by linarith
    have hteq : t = 1 := le_antisymm ht1 ht1'
    have hb : min (⌊t * 256⌋.toNat) 255 = 255 := by
      apply min_eq_right
      omega
    have hz : z = offset + scale := by
      have h := htz
      rw [hteq, one_mul] at h
      linarith
    unfold HF.u8_to_elev
    rw [hu, hb, hz]
    constructor
    · push_cast
      nlinarith [hs0]
    · push_cast
      nlinarith [hs0]

/-- Witness for C7 at scale 1, offset 0, z = 1/2. -/
theorem c7_quantization_roundtrip_witness :
    (1 : ℚ) / 1000 < 1 ∧ (0 : ℚ) ≤ 1 / 2 ∧ (1 : ℚ) / 2 ≤ 0 + 1 ∧
    ((1 : ℚ) / 2 - 1 / 256 ≤ HF.u8_to_elev (HF.elev_to_u8 (1 / 2) 1 0) 1 0 ∧
     HF.u8_to_elev (HF.elev_to_u8 (1 / 2) 1 0) 1 0 ≤ 1 / 2 + 1 / 256) :=
  ⟨by norm_num, by norm_num, by norm_num,
   c7_quantization_roundtrip 1 0 (1 / 2) (by norm_num) (by norm_num)
     (by norm_num)⟩

namespace RO

/-- For positive s, u lies strictly below the next aligned multiple. -/
theorem lt_div_succ_mul (u s : Nat) (hs : 0 < s) : u < (u / s + 1) * s := by
  have h := Nat.lt_mul_div_succ u hs
  rw [Nat.mul_comm] at h
  exact h

/-- For positive step s and l ≤ u, the scan-limit column count equals 1
exactly when the aligned step-block containing l also strictly contains u. -/
theorem steps_eq_one_iff (l u s : Nat) (hs : 0 < s) (hlu : l ≤ u) :
    ((u + s) / s * s - l / s * s) / s = 1 ↔ u < (l / s + 1) * s := by
  have hadd : (u + s) / s = u / s + 1 := Nat.add_div_right u hs
  have hdl : l / s ≤ u / s := Nat.div_le_div_right hlu
  rw [hadd]
  have hsub : (u / s + 1) * s - l / s * s = (u / s + 1 - l / s) * s :=
    (Nat.sub_mul _ _ _).symm
  rw [hsub, Nat.mul_div_cancel _ hs]
  constructor
  · intro h
    have heq : u / s = l / s := by omega
    have hu : u < (u / s + 1) * s := lt_div_succ_mul u s hs
    rw [heq] at hu
    exact hu
  · intro h
    have : u / s < l / s + 1 := (Nat.div_lt_iff_lt_mul hs).mpr h
    omega


/-- Unwrapped value of a u32 addition that does not overflow. -/
theorem u32add_eq_of_lt (a b : Nat) (h : a + b < U32MOD) :
    u32add a b = a + b := Nat.mod_eq_of_lt h

/-- Unwrapped value of a u32 multiplication that does not overflow. -/
theorem u32mul_eq_of_lt (a b : Nat) (h : a * b < U32MOD) :
    u32mul a b = a * b := Nat.mod_eq_of_lt h

/-- Unwrapped value of a u32 subtraction that does not underflow. -/
theorem u32sub_eq_of_le (a b : Nat) (hb : b ≤ a) (ha : a < U32MOD) :
    u32sub a b = a - b := by
  unfold u32sub
  unfold U32MOD at ha ⊢
  omega

/-- The full-coverage flag, spelled out on the (u32-wrapping) scan-limit
arithmetic. -/
theorem fullCoverageAt_unfold (bounds : (Nat × Nat) × (Nat × Nat))
    (base : Nat × Nat) (lod : Nat) :
    fullCoverageAt bounds base lod =
      (decide (u32sub
          (u32add bounds.2.1 (u32mul base.1 (2 ^ lod)) /
            u32mul base.1 (2 ^ lod) * u32mul base.1 (2 ^ lod))
          (bounds.1.1 / u32mul base.1 (2 ^ lod) * u32mul base.1 (2 ^ lod)) /
          u32mul base.1 (2 ^ lod) = 1) &&
       decide (u32sub
          (u32add bounds.2.2 (u32mul base.2 (2 ^ lod)) /
            u32mul base.2 (2 ^ lod) * u32mul base.2 (2 ^ lod))
          (bounds.1.2 / u32mul base.2 (2 ^ lod) * u32mul base.2 (2 ^ lod)) /
          u32mul base.2 (2 ^ lod) = 1)) := rfl

/-- Characterization of the full-coverage test when none of the u32
operations wrap: the aligned `2^lod`-step square containing the lower-left
corner strictly contains the exclusive upper-right corner. -/
theorem fullCoverageAt_iff (bounds : (Nat × Nat) × (Nat × Nat))
    (base : Nat × Nat) (lod : Nat) (hbx : 0 < base.1) (hby : 0 < base.2)
    (hlux : bounds.1.1 ≤ bounds.2.1) (hluy : bounds.1.2 ≤ bounds.2.2)
    (hnwx : bounds.2.1 + base.1 * 2 ^ lod < U32MOD)
    (hnwy : bounds.2.2 + base.2 * 2 ^ lod < U32MOD) :
    fullCoverageAt bounds base lod = true ↔
      (bounds.2.1 < (bounds.1.1 / (base.1 * 2 ^ lod) + 1) * (base.1 * 2 ^ lod) ∧
       bounds.2.2 < (bounds.1.2 / (base.2 * 2 ^ lod) + 1) * (base.2 * 2 ^ lod)) := by
  have hs1 : 0 < base.1 * 2 ^ lod := Nat.mul_pos hbx (Nat.two_pow_pos lod)
  have hs2 : 0 < base.2 * 2 ^ lod := Nat.mul_pos hby (Nat.two_pow_pos lod)
  have hm1 : u32mul base.1 (2 ^ lod) = base.1 * 2 ^ lod :=
    u32mul_eq_of_lt _ _ (lt_of_le_of_lt (Nat.le_add_left _ _) hnwx)
  have hm2 : u32mul base.2 (2 ^ lod) = base.2 * 2 ^ lod :=
    u32mul_eq_of_lt _ _ (lt_of_le_of_lt (Nat.le_add_left _ _) hnwy)
  have ha1 : u32add bounds.2.1 (base.1 * 2 ^ lod) =
      bounds.2.1 + base.1 * 2 ^ lod := u32add_eq_of_lt _ _ hnwx
  have ha2 : u32add bounds.2.2 (base.2 * 2 ^ lod) =
      bounds.2.2 + base.2 * 2 ^ lod := u32add_eq_of_lt _ _ hnwy
  have hsub1 : u32sub
      ((bounds.2.1 + base.1 * 2 ^ lod) / (base.1 * 2 ^ lod) * (base.1 * 2 ^ lod))
      (bounds.1.1 / (base.1 * 2 ^ lod) * (base.1 * 2 ^ lod)) =
      (bounds.2.1 + base.1 * 2 ^ lod) / (base.1 * 2 ^ lod) * (base.1 * 2 ^ lod) -
        bounds.1.1 / (base.1 * 2 ^ lod) * (base.1 * 2 ^ lod) :=
    u32sub_eq_of_le _ _
      (Nat.mul_le_mul_right _ (Nat.div_le_div_right
        (le_trans hlux (Nat.le_add_right _ _))))
      (lt_of_le_of_lt (Nat.div_mul_le_self _ _) hnwx)
  have hsub2 : u32sub
      ((bounds.2.2 + base.2 * 2 ^ lod) / (base.2 * 2 ^ lod) * (base.2 * 2 ^ lod))
      (bounds.1.2 / (base.2 * 2 ^ lod) * (base.2 * 2 ^ lod)) =
      (bounds.2.2 + base.2 * 2 ^ lod) / (base.2 * 2 ^ lod) * (base.2 * 2 ^ lod) -
        bounds.1.2 / (base.2 * 2 ^ lod) * (base.2 * 2 ^ lod) :=
    u32sub_eq_of_le _ _
      (Nat.mul_le_mul_right _ (Nat.div_le_div_right
        (le_trans hluy (Nat.le_add_right _ _))))
      (lt_of_le_of_lt (Nat.div_mul_le_self _ _) hnwy)
  rw [fullCoverageAt_unfold, hm1, hm2, ha1, ha2, hsub1, hsub2]
  simp only [Bool.and_eq_true, decide_eq_true_eq]
  rw [steps_eq_one_iff _ _ _ hs1 hlux, steps_eq_one_iff _ _ _ hs2 hluy]

/-- The LOD search returns the first level with full coverage. -/
theorem enclosingLodAux_spec (bounds : (Nat × Nat) × (Nat × Nat))
    (base : Nat × Nat) :
    ∀ (fuel i K : Nat), enclosingLodAux bounds base fuel i = some K →
      i ≤ K ∧ fullCoverageAt bounds base K = true ∧
      ∀ j, i ≤ j → j < K → fullCoverageAt bounds base j = false := by
  intro fuel
  induction fuel with
  | zero =>
    intro i K h
    cases h
  | succ fuel ih =>
    intro i K h
    unfold enclosingLodAux at h
    by_cases hcov : fullCoverageAt bounds base i = true
    · rw [if_pos hcov] at h
      cases h
      exact ⟨le_rfl, hcov, fun j hj1 hj2 => by omega⟩
    · rw [if_neg hcov] at h
      obtain ⟨hik, hcovK, hmin⟩ := ih (i + 1) K h
      refine ⟨by omega, hcovK, ?_⟩
      intro j hj1 hj2
      rcases Nat.eq_or_lt_of_le hj1 with heq | hlt
      · rw [← heq]
        simpa using hcov
      · exact hmin j (by omega) hj2

end RO

/-- Amended C6: the scan-limit search yields the smallest LOD `K` at which
the `2^K`-aligned cell square containing the lower-left corner strictly
contains the exclusive upper-right corner (when `ur` lies exactly on a
`2^K` boundary the search moves on to `K + 1`); the characterization holds
at every LOD `j` whose `ur + step` addition does not wrap as u32, and under
the same no-overflow proviso at `K` the computed limits satisfy the claimed
bounds: `ll' ≤ ll`, `ur' ≥ ur`, `ur' - ll' = 2^K` cells on both axes, and
`ll'` is `2^K`-cell aligned. -/
theorem c6_amended_enclosing_square (bounds : (Nat × Nat) × (Nat × Nat))
    (base : Nat × Nat) (K : Nat) (hbx : 0 < base.1) (hby : 0 < base.2)
    (hlux : bounds.1.1 ≤ bounds.2.1) (hluy : bounds.1.2 ≤ bounds.2.2)
    (hnwx : bounds.2.1 + base.1 * 2 ^ K < U32MOD)
    (hnwy : bounds.2.2 + base.2 * 2 ^ K < U32MOD)
    (hK : RO.enclosingLod bounds base = some K) :
    (∀ j, j < K → RO.fullCoverageAt bounds base j = false) ∧
    RO.fullCoverageAt bounds base K = true ∧
    (∀ j, bounds.2.1 + base.1 * 2 ^ j < U32MOD →
        bounds.2.2 + base.2 * 2 ^ j < U32MOD →
      (RO.fullCoverageAt bounds base j = true ↔
        (bounds.2.1 < (bounds.1.1 / (base.1 * 2 ^ j) + 1) * (base.1 * 2 ^ j) ∧
         bounds.2.2 < (bounds.1.2 / (base.2 * 2 ^ j) + 1) * (base.2 * 2 ^ j)))) ∧
    (RO.get_group_scan_limits bounds base K).1.1 ≤ bounds.1.1 ∧
    (RO.get_group_scan_limits bounds base K).1.2 ≤ bounds.1.2 ∧
    bounds.2.1 ≤ (RO.get_group_scan_limits bounds base K).2.1.1 ∧
    bounds.2.2 ≤ (RO.get_group_scan_limits bounds base K).2.1.2 ∧
    (RO.get_group_scan_limits bounds base K).2.1.1 -
      (RO.get_group_scan_limits bounds base K).1.1 = base.1 * 2 ^ K ∧
    (RO.get_group_scan_limits bounds base K).2.1.2 -
      (RO.get_group_scan_limits bounds base K).1.2 = base.2 * 2 ^ K ∧
    (base.1 * 2 ^ K) ∣ (RO.get_group_scan_limits bounds base K).1.1 ∧
    (base.2 * 2 ^ K) ∣ (RO.get_group_scan_limits bounds base K).1.2 := by
  have hs1 : 0 < base.1 * 2 ^ K := Nat.mul_pos hbx (Nat.two_pow_pos K)
  have hs2 : 0 < base.2 * 2 ^ K := Nat.mul_pos hby (Nat.two_pow_pos K)
  have hm1 : u32mul base.1 (2 ^ K) = base.1 * 2 ^ K :=
    RO.u32mul_eq_of_lt _ _ (lt_of_le_of_lt (Nat.le_add_left _ _) hnwx)
  have hm2 : u32mul base.2 (2 ^ K) = base.2 * 2 ^ K :=
    RO.u32mul_eq_of_lt _ _ (lt_of_le_of_lt (Nat.le_add_left _ _) hnwy)
  have ha1 : u32add bounds.2.1 (base.1 * 2 ^ K) =
      bounds.2.1 + base.1 * 2 ^ K := RO.u32add_eq_of_lt _ _ hnwx
  have ha2 : u32add bounds.2.2 (base.2 * 2 ^ K) =
      bounds.2.2 + base.2 * 2 ^ K := RO.u32add_eq_of_lt _ _ hnwy
  obtain ⟨_, hcovK, hmin⟩ := RO.enclosingLodAux_spec bounds base RO.MAX_LOD 0 K hK
  have hchar := fun j hjx hjy =>
    RO.fullCoverageAt_iff bounds base j hbx hby hlux hluy hjx hjy
  have hcovK' := (hchar K hnwx hnwy).mp hcovK
  have heq1 : bounds.2.1 / (base.1 * 2 ^ K) = bounds.1.1 / (base.1 * 2 ^ K) := by
    have hlow := Nat.div_le_div_right (c := base.1 * 2 ^ K) hlux
    have := (Nat.div_lt_iff_lt_mul hs1).mpr hcovK'.1
    omega
  have heq2 : bounds.2.2 / (base.2 * 2 ^ K) = bounds.1.2 / (base.2 * 2 ^ K) := by
    have hlow := Nat.div_le_div_right (c := base.2 * 2 ^ K) hluy
    have := (Nat.div_lt_iff_lt_mul hs2).mpr hcovK'.2
    omega
  refine ⟨fun j hj => hmin j (Nat.zero_le j) hj, hcovK, hchar,
    ?_, ?_, ?_, ?_, ?_, ?_, ?_, ?_⟩
  · exact Nat.div_mul_le_self _ _
  · exact Nat.div_mul_le_self _ _
  · show bounds.2.1 ≤ u32add bounds.2.1 (u32mul base.1 (2 ^ K)) /
      u32mul base.1 (2 ^ K) * u32mul base.1 (2 ^ K)
    rw [hm1, ha1, Nat.add_div_right _ hs1]
    exact le_of_lt (RO.lt_div_succ_mul _ _ hs1)
  · show bounds.2.2 ≤ u32add bounds.2.2 (u32mul base.2 (2 ^ K)) /
      u32mul base.2 (2 ^ K) * u32mul base.2 (2 ^ K)
    rw [hm2, ha2, Nat.add_div_right _ hs2]
    exact le_of_lt (RO.lt_div_succ_mul _ _ hs2)
  · show u32add bounds.2.1 (u32mul base.1 (2 ^ K)) /
        u32mul base.1 (2 ^ K) * u32mul base.1 (2 ^ K) -
      bounds.1.1 / u32mul base.1 (2 ^ K) * u32mul base.1 (2 ^ K) =
      base.1 * 2 ^ K
    rw [hm1, ha1, Nat.add_div_right _ hs1, heq1, Nat.add_mul, one_mul,
      Nat.add_sub_cancel_left]
  · show u32add bounds.2.2 (u32mul base.2 (2 ^ K)) /
        u32mul base.2 (2 ^ K) * u32mul base.2 (2 ^ K) -
      bounds.1.2 / u32mul base.2 (2 ^ K) * u32mul base.2 (2 ^ K) =
      base.2 * 2 ^ K
    rw [hm2, ha2, Nat.add_div_right _ hs2, heq2, Nat.add_mul, one_mul,
      Nat.add_sub_cancel_left]
  · show (base.1 * 2 ^ K) ∣ bounds.1.1 / u32mul base.1 (2 ^ K) *
      u32mul base.1 (2 ^ K)
    rw [hm1]
    exact dvd_mul_left _ _
  · show (base.2 * 2 ^ K) ∣ bounds.1.2 / u32mul base.2 (2 ^ K) *
      u32mul base.2 (2 ^ K)
    rw [hm2]
    exact dvd_mul_left _ _

/-- Witness for the amended C6 at the 4 x 4 block bounds (no u32
operation wraps there: 1024 + 256 * 8 = 3072 < 2^32). -/
theorem c6_amended_enclosing_square_witness :
    0 < c6Base.1 ∧ 0 < c6Base.2 ∧ c6Bounds.1.1 ≤ c6Bounds.2.1 ∧
    c6Bounds.1.2 ≤ c6Bounds.2.2 ∧
    c6Bounds.2.1 + c6Base.1 * 2 ^ 3 < U32MOD ∧
    c6Bounds.2.2 + c6Base.2 * 2 ^ 3 < U32MOD ∧
    RO.enclosingLod c6Bounds c6Base = some 3 ∧
    ((RO.get_group_scan_limits c6Bounds c6Base 3).2.1.1 -
       (RO.get_group_scan_limits c6Bounds c6Base 3).1.1 = c6Base.1 * 2 ^ 3 ∧
     (c6Base.1 * 2 ^ 3) ∣ (RO.get_group_scan_limits c6Bounds c6Base 3).1.1) := by
  have h := c6_amended_enclosing_square c6Bounds c6Base 3 (by decide) (by decide)
    (by decide) (by decide) (by decide) (by decide) (by decide)
  exact ⟨by decide, by decide, by decide, by decide, by decide, by decide,
    by decide, h.2.2.2.2.2.2.2.1, h.2.2.2.2.2.2.2.2.2.1⟩
